import Mathlib

/-!
Verification of the aggregation core of the two mock microservices
(analytics service and notification service).

The analytics service keeps an in-memory list `salesData` of sale records,
seeded at startup, and exposes:
  * GET /analytics/sales    — summary statistics over the whole list,
  * POST /analytics/sales   — append a new sale with id = length + 1 and
                              the current wall-clock date,
  * GET /analytics/products — per-product totals, grouped by the product
                              string.

The notification service keeps a list `notifications` seeded at startup and
exposes GET /notifications (raw listing) and POST /notifications (append with
id = length + 1 and the current wall-clock ISO timestamp).

JavaScript numbers are modelled as rationals (ℚ); the one numeric behaviour
that rationals cannot express — division by zero producing Infinity/NaN —
is captured by the `JSNum` type and `jsDiv`.  Wall-clock time is passed to
the append operations as an explicit string parameter.  Request bodies may
miss fields (the handlers do no validation), so the handler-level model uses
`Option`-typed fields (`RawSale`, `Notification`); the aggregation functions
are stated over well-formed records (`Sale`) as in the data model.
-/

/-- Result of a JavaScript floating-point division: either a finite value
(modelled exactly as a rational) or one of the non-finite values
Infinity, -Infinity, NaN. -/
inductive JSNum where
  | fin : ℚ → JSNum
  | posInf : JSNum
  | negInf : JSNum
  | nan : JSNum
deriving DecidableEq

/-- Whether a JavaScript number is finite. -/
def JSNum.isFinite : JSNum → Bool
  | .fin _ => true
  | _ => false

/-- JavaScript division `a / b` on finite operands: an ordinary quotient when
`b ≠ 0`, and Infinity / -Infinity / NaN when `b = 0` depending on the sign
of `a`. -/
def jsDiv (a b : ℚ) : JSNum :=
  if b = 0 then
    if 0 < a then JSNum.posInf
    else if a < 0 then JSNum.negInf
    else JSNum.nan
  else JSNum.fin (a / b)

/-- A well-formed sale record, as in the seeded data of
src/analytics-service/index.js: `{id, product, quantity, amount, date}`. -/
structure Sale where
  id : Nat
  product : String
  quantity : ℚ
  amount : ℚ
  date : String
deriving DecidableEq

/-- The analytics store seeded at process start
(src/analytics-service/index.js, `let salesData = [...]`). -/
def salesData : List Sale :=
  [ { id := 1, product := "Розы", quantity := 15, amount := 7500,
      date := "2024-01-15" },
    { id := 2, product := "Тюльпаны", quantity := 25, amount := 5000,
      date := "2024-01-16" } ]

/-- `salesData.reduce((sum, sale) => sum + sale.amount, 0)` from the
GET /analytics/sales handler. -/
def totalSalesOf (records : List Sale) : ℚ :=
  records.foldl (fun sum sale => sum + sale.amount) 0

/-- `salesData.reduce((sum, sale) => sum + sale.quantity, 0)` from the
GET /analytics/sales handler. -/
def totalQuantityOf (records : List Sale) : ℚ :=
  records.foldl (fun sum sale => sum + sale.quantity) 0

/-- The response object of GET /analytics/sales. -/
structure SalesStats where
  totalSales : ℚ
  totalQuantity : ℚ
  averageSale : JSNum
  salesCount : Nat
  salesData : List Sale
deriving DecidableEq

/-- The GET /analytics/sales computation
(src/analytics-service/index.js lines 102-113). -/
def computeSalesStats (records : List Sale) : SalesStats :=
  { totalSales := totalSalesOf records
    totalQuantity := totalQuantityOf records
    averageSale := jsDiv (totalSalesOf records) (records.length : ℚ)
    salesCount := records.length
    salesData := records }

/-- A well-formed POST /analytics/sales request body `{product, quantity, amount}`. -/
structure SaleBody where
  product : String
  quantity : ℚ
  amount : ℚ
deriving DecidableEq

/-- The POST /analytics/sales handler
(src/analytics-service/index.js lines 146-157) on a well-formed body.
`today` is `new Date().toISOString().split('T')[0]`, the current wall-clock
date, passed explicitly.  Returns the updated store and the stored record
(which the handler also sends back with status 201). -/
def appendSale (store : List Sale) (body : SaleBody) (today : String) :
    List Sale × Sale :=
  let newSale : Sale :=
    { id := store.length + 1
      product := body.product
      quantity := body.quantity
      amount := body.amount
      date := today }
  (store ++ [newSale], newSale)

/-- One group of the GET /analytics/products report. -/
structure ProductStats where
  totalQuantity : ℚ
  totalAmount : ℚ
deriving DecidableEq

/-- Look up the group of product `p` in the accumulator object, first match
first (JavaScript object keys are unique; the report keeps them unique). -/
def findGroup (acc : List (String × ProductStats)) (p : String) :
    Option ProductStats :=
  match acc with
  | [] => none
  | (k, st) :: rest => if k = p then some st else findGroup rest p

/-- `acc[sale.product].totalQuantity += sale.quantity;
acc[sale.product].totalAmount += sale.amount;` applied to one entry:
entries under other keys are unchanged. -/
def bumpEntry (sale : Sale) (e : String × ProductStats) :
    String × ProductStats :=
  if e.1 = sale.product then
    (e.1, { totalQuantity := e.2.totalQuantity + sale.quantity
            totalAmount := e.2.totalAmount + sale.amount })
  else e

/-- One step of the `reduce` in the GET /analytics/products handler
(src/analytics-service/index.js lines 181-188): if the product key is
absent, initialise it to `{totalQuantity: 0, totalAmount: 0}` (inserted at
the end, matching JavaScript object insertion order), then add the sale's
quantity and amount to that key's group. -/
def reportStep (acc : List (String × ProductStats)) (sale : Sale) :
    List (String × ProductStats) :=
  let ensured :=
    match findGroup acc sale.product with
    | none =>
        acc ++ [(sale.product, ({ totalQuantity := 0, totalAmount := 0 } : ProductStats))]
    | some _ => acc
  ensured.map (bumpEntry sale)

/-- The GET /analytics/products computation
(src/analytics-service/index.js lines 180-191): the JavaScript object is
modelled as an association list in insertion order. -/
def computeProductReport (records : List Sale) :
    List (String × ProductStats) :=
  records.foldl reportStep []

/-- A POST /analytics/sales request body as the handler actually receives
it: destructuring `req.body` yields `undefined` (here `none`) for any
missing field. -/
structure RawSaleBody where
  product : Option String
  quantity : Option ℚ
  amount : Option ℚ
deriving DecidableEq

/-- A sale record as the store can actually hold it: caller-supplied fields
may be `undefined` since the handler does no validation. -/
structure RawSale where
  id : Nat
  product : Option String
  quantity : Option ℚ
  amount : Option ℚ
  date : String
deriving DecidableEq

/-- An HTTP response: status code and JSON body. -/
structure HttpResult (α : Type) where
  status : Nat
  body : α
deriving DecidableEq

/-- The POST /analytics/sales handler on an arbitrary (possibly incomplete)
body (src/analytics-service/index.js lines 146-157): no validation, always
pushes the record and responds 201 with it. -/
def postSalesHandler (store : List RawSale) (body : RawSaleBody)
    (today : String) : List RawSale × HttpResult RawSale :=
  let newSale : RawSale :=
    { id := store.length + 1
      product := body.product
      quantity := body.quantity
      amount := body.amount
      date := today }
  (store ++ [newSale], { status := 201, body := newSale })

/-- A notification record `{id, message, type, timestamp}` as stored by
src/notification-service/index.js; `message` and `type` may be `undefined`
since the POST handler does no validation. -/
structure Notification where
  id : Nat
  message : Option String
  type : Option String
  timestamp : String
deriving DecidableEq

/-- The notification store seeded at process start
(src/notification-service/index.js, `let notifications = [...]`). -/
def notifications : List Notification :=
  [ { id := 1, message := some "Новая поставка роз", type := some "supply",
      timestamp := "2024-01-15T10:30:00.000Z" } ]

/-- A POST /notifications request body: destructuring `req.body` yields
`undefined` (here `none`) for any missing field. -/
structure NotificationBody where
  message : Option String
  type : Option String
deriving DecidableEq

/-- The POST /notifications handler
(src/notification-service/index.js lines 119-129).  `now` is
`new Date().toISOString()`, the current wall-clock instant, passed
explicitly. -/
def postNotificationsHandler (store : List Notification)
    (body : NotificationBody) (now : String) :
    List Notification × HttpResult Notification :=
  let newNotification : Notification :=
    { id := store.length + 1
      message := body.message
      type := body.type
      timestamp := now }
  (store ++ [newNotification], { status := 201, body := newNotification })

/-- A sequence of POST /analytics/sales requests (body plus the wall-clock
date at the moment of the request), applied in order. -/
def runSaleAppends (init : List Sale) (reqs : List (SaleBody × String)) :
    List Sale :=
  reqs.foldl (fun store r => (appendSale store r.1 r.2).1) init

/-- A sequence of POST /notifications requests (body plus the wall-clock
instant at the moment of the request), applied in order. -/
def runNotificationAppends (init : List Notification)
    (reqs : List (NotificationBody × String)) : List Notification :=
  reqs.foldl (fun store r => (postNotificationsHandler store r.1 r.2).1) init

/-- Pointwise sum of two product groups. -/
def addStats (a b : ProductStats) : ProductStats :=
  { totalQuantity := a.totalQuantity + b.totalQuantity
    totalAmount := a.totalAmount + b.totalAmount }

/-- Add one sale's quantity and amount to a group. -/
def addSaleStats (st : ProductStats) (sale : Sale) : ProductStats :=
  { totalQuantity := st.totalQuantity + sale.quantity
    totalAmount := st.totalAmount + sale.amount }

/-- Specification-side totals of product `p`: quantity and amount summed
over exactly the records whose product is `p`. -/
def groupTotals (records : List Sale) (p : String) : ProductStats :=
  { totalQuantity :=
      ((records.filter (fun s => s.product = p)).map Sale.quantity).sum
    totalAmount :=
      ((records.filter (fun s => s.product = p)).map Sale.amount).sum }

/-- Sum of the totalQuantity fields over all groups of a report. -/
def reportQuantitySum (acc : List (String × ProductStats)) : ℚ :=
  (acc.map (fun e => e.2.totalQuantity)).sum

/-- Sum of the totalAmount fields over all groups of a report. -/
def reportAmountSum (acc : List (String × ProductStats)) : ℚ :=
  (acc.map (fun e => e.2.totalAmount)).sum

/-- Folding `(sum, x) ↦ sum + g x` over a list from `init` adds the sum of
the mapped values, as JavaScript's `reduce((sum, r) => sum + g(r), init)`. -/
theorem foldl_add_eq_sum {α : Type} (g : α → ℚ) :
    ∀ (l : List α) (init : ℚ),
      l.foldl (fun s x => s + g x) init = init + (l.map g).sum
  | [], init => by simp
  | x :: xs, init => by
    simp [List.foldl_cons, foldl_add_eq_sum g xs (init + g x), add_assoc]

/-- `totalSalesOf` is the sum of the amount fields. -/
theorem totalSalesOf_eq_sum (records : List Sale) :
    totalSalesOf records = (records.map Sale.amount).sum := by
  simpa [totalSalesOf] using foldl_add_eq_sum Sale.amount records 0

/-- `totalQuantityOf` is the sum of the quantity fields. -/
theorem totalQuantityOf_eq_sum (records : List Sale) :
    totalQuantityOf records = (records.map Sale.quantity).sum := by
  simpa [totalQuantityOf] using foldl_add_eq_sum Sale.quantity records 0

/-- C1: for every record sequence, the GET /analytics/sales computation
returns totalSales = sum of amounts, totalQuantity = sum of quantities,
salesCount = number of records, averageSale = totalSales divided (in
JavaScript semantics) by salesCount, and salesData = the record sequence
unchanged. -/
theorem computeSalesStats_fields (records : List Sale) :
    (computeSalesStats records).totalSales = (records.map Sale.amount).sum ∧
    (computeSalesStats records).totalQuantity =
      (records.map Sale.quantity).sum ∧
    (computeSalesStats records).salesCount = records.length ∧
    (computeSalesStats records).averageSale =
      jsDiv (computeSalesStats records).totalSales
        (((computeSalesStats records).salesCount : ℚ)) ∧
    (computeSalesStats records).salesData = records :=
  ⟨totalSalesOf_eq_sum records, totalQuantityOf_eq_sum records, rfl, rfl, rfl⟩

/-- C2: each POST append (sales and notifications) assigns
id = current length + 1, takes its date/timestamp from the wall clock,
copies the caller-supplied fields, appends the record at the end of the
store, and returns exactly the stored record. -/
theorem append_assigns_id_and_stores (store : List RawSale)
    (body : RawSaleBody) (today : String) (nstore : List Notification)
    (nbody : NotificationBody) (now : String) :
    ((postSalesHandler store body today).2.body.id = store.length + 1 ∧
     (postSalesHandler store body today).2.body.date = today ∧
     (postSalesHandler store body today).2.body.product = body.product ∧
     (postSalesHandler store body today).2.body.quantity = body.quantity ∧
     (postSalesHandler store body today).2.body.amount = body.amount ∧
     (postSalesHandler store body today).1 =
       store ++ [(postSalesHandler store body today).2.body]) ∧
    ((postNotificationsHandler nstore nbody now).2.body.id =
       nstore.length + 1 ∧
     (postNotificationsHandler nstore nbody now).2.body.timestamp = now ∧
     (postNotificationsHandler nstore nbody now).2.body.message =
       nbody.message ∧
     (postNotificationsHandler nstore nbody now).2.body.type = nbody.type ∧
     (postNotificationsHandler nstore nbody now).1 =
       nstore ++ [(postNotificationsHandler nstore nbody now).2.body]) :=
  ⟨⟨rfl, rfl, rfl, rfl, rfl, rfl⟩, ⟨rfl, rfl, rfl, rfl, rfl⟩⟩

/-- C9: on the empty store the GET /analytics/sales computation divides by
the record count 0 without any guard, and the resulting averageSale is the
non-finite value NaN. -/
theorem averageSale_empty_nonfinite :
    (computeSalesStats []).averageSale =
      jsDiv (totalSalesOf []) ((([] : List Sale).length : ℚ)) ∧
    (([] : List Sale).length : ℚ) = 0 ∧
    (computeSalesStats []).averageSale = JSNum.nan ∧
    (computeSalesStats []).averageSale.isFinite = false := by
  refine ⟨rfl, by norm_num, ?_, ?_⟩ <;>
    norm_num [computeSalesStats, totalSalesOf, jsDiv, JSNum.isFinite]

/-- C6 counterexample: it is not the case that both stores are seeded with
exactly one fixture record — the analytics store starts with two. -/
theorem seeds_not_both_singleton :
    ¬ (salesData.length = 1 ∧ notifications.length = 1) := by
  simp [salesData]

/-- C6 amended: at process start the analytics store holds two fixture
records and the notification store holds one. -/
theorem seed_sizes : salesData.length = 2 ∧ notifications.length = 1 :=
  ⟨rfl, rfl⟩

/-- C5 counterexample: appending `product="Розы", quantity=15, amount=7500`
to the seeded store (which holds two records, with amounts 7500 and 5000)
does not give totalSales = 15000, salesCount = 2, averageSale = 7500. -/
theorem seeded_append_claim_false :
    ¬ ((computeSalesStats (appendSale salesData
          { product := "Розы", quantity := 15, amount := 7500 }
          "2024-02-01").1).totalSales = 15000 ∧
       (computeSalesStats (appendSale salesData
          { product := "Розы", quantity := 15, amount := 7500 }
          "2024-02-01").1).salesCount = 2 ∧
       (computeSalesStats (appendSale salesData
          { product := "Розы", quantity := 15, amount := 7500 }
          "2024-02-01").1).averageSale = JSNum.fin 7500) := by
  intro h
  have h1 := h.1
  norm_num [computeSalesStats, totalSalesOf, salesData, appendSale] at h1

/-- C5 amended: appending `product="Розы", quantity=15, amount=7500` to the
seeded store yields totalSales = 7500+5000+7500 = 20000, salesCount = 3,
and averageSale = 20000/3, whatever the wall-clock date. -/
theorem seeded_append_stats (today : String) :
    (computeSalesStats (appendSale salesData
        { product := "Розы", quantity := 15, amount := 7500 }
        today).1).totalSales = 20000 ∧
    (computeSalesStats (appendSale salesData
        { product := "Розы", quantity := 15, amount := 7500 }
        today).1).salesCount = 3 ∧
    (computeSalesStats (appendSale salesData
        { product := "Розы", quantity := 15, amount := 7500 }
        today).1).averageSale = JSNum.fin (20000 / 3) := by
  refine ⟨?_, rfl, ?_⟩ <;>
    norm_num [computeSalesStats, totalSalesOf, salesData, appendSale, jsDiv]

/-- C5 amended, witness at a concrete date. -/
theorem seeded_append_stats_witness :
    (computeSalesStats (appendSale salesData
        { product := "Розы", quantity := 15, amount := 7500 }
        "2024-02-01").1).totalSales = 20000 :=
  (seeded_append_stats "2024-02-01").1

/-- C8: a POST body with a missing required field is not rejected: the
handler still responds 201, still appends the record, and the stored record
simply carries `undefined` (`none`) in the missing field. -/
theorem missing_field_still_stored (store : List RawSale)
    (body : RawSaleBody) (today : String) (nstore : List Notification)
    (nbody : NotificationBody) (now : String)
    (h : body.product = none ∨ body.quantity = none ∨ body.amount = none)
    (hn : nbody.message = none ∨ nbody.type = none) :
    ((postSalesHandler store body today).2.status = 201 ∧
     (postSalesHandler store body today).1 =
       store ++ [(postSalesHandler store body today).2.body] ∧
     (body.product = none →
       (postSalesHandler store body today).2.body.product = none) ∧
     (body.quantity = none →
       (postSalesHandler store body today).2.body.quantity = none) ∧
     (body.amount = none →
       (postSalesHandler store body today).2.body.amount = none)) ∧
    ((postNotificationsHandler nstore nbody now).2.status = 201 ∧
     (postNotificationsHandler nstore nbody now).1 =
       nstore ++ [(postNotificationsHandler nstore nbody now).2.body] ∧
     (nbody.message = none →
       (postNotificationsHandler nstore nbody now).2.body.message = none) ∧
     (nbody.type = none →
       (postNotificationsHandler nstore nbody now).2.body.type = none)) :=
  ⟨⟨rfl, rfl, fun hp => hp, fun hq => hq, fun ha => ha⟩,
   ⟨rfl, rfl, fun hm => hm, fun ht => ht⟩⟩

/-- C8 witness: a fully empty body on each service, over the seeded
stores. -/
theorem missing_field_still_stored_witness :
    (((postSalesHandler [] { product := none, quantity := none, amount := none }
        "2024-02-01").2.status = 201 ∧
      (postSalesHandler [] { product := none, quantity := none, amount := none }
        "2024-02-01").1 =
        [] ++ [(postSalesHandler []
          { product := none, quantity := none, amount := none }
          "2024-02-01").2.body] ∧
      (({ product := none, quantity := none, amount := none } : RawSaleBody).product = none →
        (postSalesHandler [] { product := none, quantity := none, amount := none }
          "2024-02-01").2.body.product = none) ∧
      (({ product := none, quantity := none, amount := none } : RawSaleBody).quantity = none →
        (postSalesHandler [] { product := none, quantity := none, amount := none }
          "2024-02-01").2.body.quantity = none) ∧
      (({ product := none, quantity := none, amount := none } : RawSaleBody).amount = none →
        (postSalesHandler [] { product := none, quantity := none, amount := none }
          "2024-02-01").2.body.amount = none)) ∧
     ((postNotificationsHandler notifications { message := none, type := none }
        "2024-02-01T00:00:00.000Z").2.status = 201 ∧
      (postNotificationsHandler notifications { message := none, type := none }
        "2024-02-01T00:00:00.000Z").1 =
        notifications ++ [(postNotificationsHandler notifications
          { message := none, type := none }
          "2024-02-01T00:00:00.000Z").2.body] ∧
      (({ message := none, type := none } : NotificationBody).message = none →
        (postNotificationsHandler notifications { message := none, type := none }
          "2024-02-01T00:00:00.000Z").2.body.message = none) ∧
      (({ message := none, type := none } : NotificationBody).type = none →
        (postNotificationsHandler notifications { message := none, type := none }
          "2024-02-01T00:00:00.000Z").2.body.type = none))) :=
  missing_field_still_stored []
    { product := none, quantity := none, amount := none } "2024-02-01"
    notifications { message := none, type := none } "2024-02-01T00:00:00.000Z"
    (Or.inl rfl) (Or.inl rfl)

/-- Running a sequence of POST /analytics/sales requests appends one record
per request: the length grows by the number of requests, the quantities are
the initial ones followed by the requested ones, and the assigned ids
continue the length count. -/
theorem runSaleAppends_spec (reqs : List (SaleBody × String)) :
    ∀ init : List Sale,
      (runSaleAppends init reqs).length = init.length + reqs.length ∧
      (runSaleAppends init reqs).map Sale.quantity =
        init.map Sale.quantity ++ reqs.map (fun r => r.1.quantity) ∧
      (runSaleAppends init reqs).map Sale.id =
        init.map Sale.id ++ List.range' (init.length + 1) reqs.length := by
  induction reqs with
  | nil => intro init; simp [runSaleAppends]
  | cons r rest ih =>
    intro init
    obtain ⟨hlen, hq, hid⟩ := ih ((appendSale init r.1 r.2).1)
    have step : runSaleAppends init (r :: rest) =
        runSaleAppends ((appendSale init r.1 r.2).1) rest := rfl
    have hfst : (appendSale init r.1 r.2).1 =
        init ++ [(appendSale init r.1 r.2).2] := rfl
    refine ⟨?_, ?_, ?_⟩
    · rw [step, hlen, hfst]; simp; omega
    · rw [step, hq, hfst]; simp [appendSale]
    · rw [step, hid, hfst]
      simp [appendSale, List.range'_succ]

/-- Running a sequence of POST /notifications requests appends one record
per request, the assigned ids continuing the length count. -/
theorem runNotificationAppends_spec (reqs : List (NotificationBody × String)) :
    ∀ init : List Notification,
      (runNotificationAppends init reqs).length = init.length + reqs.length ∧
      (runNotificationAppends init reqs).map Notification.id =
        init.map Notification.id ++ List.range' (init.length + 1) reqs.length := by
  induction reqs with
  | nil => intro init; simp [runNotificationAppends]
  | cons r rest ih =>
    intro init
    obtain ⟨hlen, hid⟩ := ih ((postNotificationsHandler init r.1 r.2).1)
    have step : runNotificationAppends init (r :: rest) =
        runNotificationAppends ((postNotificationsHandler init r.1 r.2).1) rest := rfl
    have hfst : (postNotificationsHandler init r.1 r.2).1 =
        init ++ [(postNotificationsHandler init r.1 r.2).2.body] := rfl
    refine ⟨?_, ?_⟩
    · rw [step, hlen, hfst]; simp; omega
    · rw [step, hid, hfst]
      simp [postNotificationsHandler, List.range'_succ]

/-- C4: starting from an empty store, after any sequence of N sale appends
the reported totalQuantity is the sum of the individually appended
quantities and salesCount is N. -/
theorem appends_totalQuantity_and_count (reqs : List (SaleBody × String)) :
    (computeSalesStats (runSaleAppends [] reqs)).totalQuantity =
      (reqs.map (fun r => r.1.quantity)).sum ∧
    (computeSalesStats (runSaleAppends [] reqs)).salesCount = reqs.length := by
  obtain ⟨hlen, hq, -⟩ := runSaleAppends_spec reqs []
  constructor
  · show totalQuantityOf (runSaleAppends [] reqs) = _
    rw [totalQuantityOf_eq_sum, hq]; simp
  · show (runSaleAppends [] reqs).length = _
    rw [hlen]; simp

/-- C7: in every store state reachable from the seeded state by appends
(there is no delete operation), the record ids are pairwise distinct, and a
further append would be assigned id = current record count + 1 — for both
the analytics store and the notification store. -/
theorem id_assignment_invariant (reqs : List (SaleBody × String))
    (nreqs : List (NotificationBody × String)) :
    (((runSaleAppends salesData reqs).map Sale.id).Nodup ∧
     ∀ body today,
       (appendSale (runSaleAppends salesData reqs) body today).2.id =
         (runSaleAppends salesData reqs).length + 1) ∧
    (((runNotificationAppends notifications nreqs).map Notification.id).Nodup ∧
     ∀ body now,
       (postNotificationsHandler (runNotificationAppends notifications nreqs)
           body now).2.body.id =
         (runNotificationAppends notifications nreqs).length + 1) := by
  obtain ⟨-, -, hid⟩ := runSaleAppends_spec reqs salesData
  obtain ⟨-, hnid⟩ := runNotificationAppends_spec nreqs notifications
  refine ⟨⟨?_, fun body today => rfl⟩, ⟨?_, fun body now => rfl⟩⟩
  · rw [hid]
    have : salesData.map Sale.id = List.range' 1 salesData.length := rfl
    rw [this]
    show (List.range' 1 2 ++ List.range' (2 + 1) reqs.length).Nodup
    have h2 : (2 : Nat) + 1 = 1 + 1 * 2 := by norm_num
    rw [h2, List.range'_append]
    exact List.nodup_range' 1 (reqs.length + 2)
  · rw [hnid]
    have : notifications.map Notification.id =
        List.range' 1 notifications.length := rfl
    rw [this]
    show (List.range' 1 1 ++ List.range' (1 + 1) nreqs.length).Nodup
    have h1 : (1 : Nat) + 1 = 1 + 1 * 1 := by norm_num
    rw [h1, List.range'_append]
    exact List.nodup_range' 1 (nreqs.length + 1)

/-- `findGroup` on an extended object: the old binding wins, otherwise the
appended binding answers. -/
theorem findGroup_append (q : String) (st0 : ProductStats) :
    ∀ (acc : List (String × ProductStats)) (p : String),
      findGroup (acc ++ [(q, st0)]) p =
        match findGroup acc p with
        | some st => some st
        | none => if q = p then some st0 else none
  | [], p => by simp [findGroup]
  | (k, st) :: rest, p => by
    by_cases hk : k = p <;>
      simp [findGroup, hk, findGroup_append q st0 rest p]

/-- `findGroup` is `none` exactly when the key is absent. -/
theorem findGroup_eq_none_iff :
    ∀ (acc : List (String × ProductStats)) (p : String),
      findGroup acc p = none ↔ p ∉ acc.map Prod.fst
  | [], p => by simp [findGroup]
  | (k, st) :: rest, p => by
    by_cases hk : k = p <;>
      simp [findGroup, hk, findGroup_eq_none_iff rest p, Ne.symm]
  
/-- `findGroup` on a cons cell. -/
theorem findGroup_cons (e : String × ProductStats)
    (rest : List (String × ProductStats)) (p : String) :
    findGroup (e :: rest) p =
      if e.1 = p then some e.2 else findGroup rest p := rfl

/-- Bumping the entries of one key, seen through `findGroup`. -/
theorem findGroup_map_bump (sale : Sale) :
    ∀ (acc : List (String × ProductStats)) (p : String),
      findGroup (acc.map (bumpEntry sale)) p =
        if p = sale.product then
          (findGroup acc p).map (fun st => addSaleStats st sale)
        else findGroup acc p
  | [], p => by simp [findGroup]
  | (k, st) :: rest, p => by
    rw [List.map_cons, findGroup_cons, findGroup_cons]
    by_cases hk : k = sale.product <;> by_cases hp : k = p
    · subst hk; subst hp; simp [bumpEntry, addSaleStats]
    · subst hk
      simp [bumpEntry, addSaleStats, hp, Ne.symm hp,
        findGroup_map_bump sale rest p]
    · subst hp; simp [bumpEntry, hk]
    · simp [bumpEntry, hk, hp, findGroup_map_bump sale rest p]

/-- The effect of one reduce step of the product report on one key. -/
theorem findGroup_reportStep (acc : List (String × ProductStats))
    (sale : Sale) (p : String) :
    findGroup (reportStep acc sale) p =
      if p = sale.product then
        some (addSaleStats
          ((findGroup acc p).getD
            { totalQuantity := 0, totalAmount := 0 }) sale)
      else findGroup acc p := by
  cases hfg : findGroup acc sale.product with
  | none =>
    simp only [reportStep, hfg]
    rw [findGroup_map_bump, findGroup_append]
    by_cases hp : p = sale.product
    · subst hp; simp [hfg]
    · cases hacc : findGroup acc p <;> simp [hp, Ne.symm hp, hacc]
  | some st0 =>
    simp only [reportStep, hfg]
    rw [findGroup_map_bump]
    by_cases hp : p = sale.product
    · subst hp; simp [hfg]
    · simp [hp]

/-- Characterisation of the whole grouping fold: each key of the final
object holds the accumulator's initial group (if any) plus the totals over
the records with that product. -/
theorem findGroup_foldl_reportStep :
    ∀ (records : List Sale) (acc : List (String × ProductStats)) (p : String),
      findGroup (records.foldl reportStep acc) p =
        match findGroup acc p with
        | some st => some (addStats st (groupTotals records p))
        | none =>
            if p ∈ records.map Sale.product then some (groupTotals records p)
            else none
  | [], acc, p => by
    cases h : findGroup acc p <;> simp [h, groupTotals, addStats]
  | sale :: rest, acc, p => by
    rw [List.foldl_cons,
      findGroup_foldl_reportStep rest (reportStep acc sale) p,
      findGroup_reportStep]
    by_cases hp : p = sale.product
    · subst hp
      cases h : findGroup acc sale.product with
      | none =>
        simp [h, groupTotals, addStats, addSaleStats, List.filter_cons]
      | some st =>
        simp [h, groupTotals, addStats, addSaleStats, List.filter_cons,
          add_assoc]
    · cases h : findGroup acc p <;>
        simp [h, hp, Ne.symm hp, groupTotals, List.filter_cons]

/-- Bumping never changes an entry's key. -/
theorem keys_map_bump (sale : Sale) :
    ∀ acc : List (String × ProductStats),
      (acc.map (bumpEntry sale)).map Prod.fst = acc.map Prod.fst
  | [] => rfl
  | e :: rest => by
    by_cases h : e.1 = sale.product <;>
      simp [bumpEntry, h, keys_map_bump sale rest]

/-- Bumping never changes an entry's key (pointwise form). -/
theorem bumpEntry_fst (sale : Sale) (e : String × ProductStats) :
    (bumpEntry sale e).1 = e.1 := by
  by_cases h : e.1 = sale.product <;> simp [bumpEntry, h]

/-- One reduce step appends the sale's product key when absent and keeps
the keys unchanged otherwise. -/
theorem keys_reportStep (acc : List (String × ProductStats)) (sale : Sale) :
    (reportStep acc sale).map Prod.fst =
      match findGroup acc sale.product with
      | none => acc.map Prod.fst ++ [sale.product]
      | some _ => acc.map Prod.fst := by
  cases h : findGroup acc sale.product <;>
    simp [reportStep, h, keys_map_bump, bumpEntry_fst, Function.comp]

/-- The report fold keeps the keys of the object pairwise distinct. -/
theorem nodup_keys_foldl_reportStep :
    ∀ (records : List Sale) (acc : List (String × ProductStats)),
      (acc.map Prod.fst).Nodup →
      ((records.foldl reportStep acc).map Prod.fst).Nodup
  | [], _, h => h
  | sale :: rest, acc, h => by
    rw [List.foldl_cons]
    apply nodup_keys_foldl_reportStep rest
    rw [keys_reportStep]
    cases hfg : findGroup acc sale.product with
    | none =>
      have hnotin := (findGroup_eq_none_iff acc sale.product).mp hfg
      simp [List.nodup_append, h]
      simpa using hnotin
    | some st => simpa using h

/-- The full report, looked up by key: present exactly for the products
that occur, holding their totals. -/
theorem findGroup_computeProductReport (records : List Sale) (p : String) :
    findGroup (computeProductReport records) p =
      if p ∈ records.map Sale.product then some (groupTotals records p)
      else none := by
  have h := findGroup_foldl_reportStep records [] p
  simpa [computeProductReport, findGroup] using h

/-- C3: the product report's keys are exactly the distinct product strings
of the records (compared as raw strings, no case-folding or
normalisation), and each key's group holds the sum of quantity and the sum
of amount over exactly the records with that product. -/
theorem computeProductReport_groups (records : List Sale) :
    ((computeProductReport records).map Prod.fst).Nodup ∧
    (∀ p, p ∈ (computeProductReport records).map Prod.fst ↔
      p ∈ records.map Sale.product) ∧
    (∀ p st, findGroup (computeProductReport records) p = some st →
      st.totalQuantity =
        ((records.filter (fun s => s.product = p)).map Sale.quantity).sum ∧
      st.totalAmount =
        ((records.filter (fun s => s.product = p)).map Sale.amount).sum) := by
  refine ⟨nodup_keys_foldl_reportStep records [] (by simp), ?_, ?_⟩
  · intro p
    constructor
    · intro hk
      by_contra hmem
      have hnone : findGroup (computeProductReport records) p = none := by
        rw [findGroup_computeProductReport, if_neg hmem]
      exact ((findGroup_eq_none_iff _ p).mp hnone) hk
    · intro hmem
      have hsome : findGroup (computeProductReport records) p ≠ none := by
        rw [findGroup_computeProductReport, if_pos hmem]
        simp
      by_contra hk
      exact hsome ((findGroup_eq_none_iff _ p).mpr hk)
  · intro p st hst
    rw [findGroup_computeProductReport] at hst
    by_cases hmem : p ∈ records.map Sale.product
    · rw [if_pos hmem] at hst
      have hst2 : st = groupTotals records p := by
        injection hst with h2
        exact h2.symm
      subst hst2
      exact ⟨rfl, rfl⟩
    · rw [if_neg hmem] at hst
      cases hst

/-- C3 witness: on the seeded store, the group of "Розы" exists and holds
the totals of exactly the "Розы" records. -/
theorem computeProductReport_groups_witness :
    findGroup (computeProductReport salesData) "Розы" =
      some { totalQuantity := 15, totalAmount := 7500 } ∧
    ({ totalQuantity := 15, totalAmount := 7500 } : ProductStats).totalQuantity =
      ((salesData.filter (fun s => s.product = "Розы")).map Sale.quantity).sum ∧
    ({ totalQuantity := 15, totalAmount := 7500 } : ProductStats).totalAmount =
      ((salesData.filter (fun s => s.product = "Розы")).map Sale.amount).sum := by
  have hfg : findGroup (computeProductReport salesData) "Розы" =
      some { totalQuantity := 15, totalAmount := 7500 } := by
    rw [findGroup_computeProductReport]
    norm_num [salesData, groupTotals, List.filter_cons,
      (show ("Тюльпаны" : String) ≠ "Розы" by decide)]
  exact ⟨hfg,
    ((computeProductReport_groups salesData).2.2 "Розы" _ hfg).1,
    ((computeProductReport_groups salesData).2.2 "Розы" _ hfg).2⟩

/-- If the sale's product key is absent, bumping changes nothing. -/
theorem map_bump_of_not_mem (sale : Sale) :
    ∀ acc : List (String × ProductStats),
      sale.product ∉ acc.map Prod.fst → acc.map (bumpEntry sale) = acc
  | [], _ => rfl
  | e :: rest, h => by
    rw [List.map_cons, List.mem_cons] at h
    push_neg at h
    rw [List.map_cons, map_bump_of_not_mem sale rest h.2]
    have he : e.1 ≠ sale.product := Ne.symm h.1
    simp [bumpEntry, he]

/-- Bumping a key that is present under distinct keys adds the sale's
contribution to any additive weight of the object, once. -/
theorem wsum_map_bump (w : ProductStats → ℚ) (f : Sale → ℚ) (sale : Sale)
    (hw : ∀ st : ProductStats,
      w { totalQuantity := st.totalQuantity + sale.quantity,
          totalAmount := st.totalAmount + sale.amount } = w st + f sale) :
    ∀ acc : List (String × ProductStats),
      (acc.map Prod.fst).Nodup → sale.product ∈ acc.map Prod.fst →
      ((acc.map (bumpEntry sale)).map (fun e => w e.2)).sum =
        (acc.map (fun e => w e.2)).sum + f sale
  | [], _, hm => by simp at hm
  | e :: rest, hnd, hm => by
    rw [List.map_cons] at hnd hm
    obtain ⟨h1, h2⟩ := List.nodup_cons.mp hnd
    by_cases he : e.1 = sale.product
    · have hrest : sale.product ∉ rest.map Prod.fst := he ▸ h1
      rw [List.map_cons, List.map_cons, List.map_cons,
        map_bump_of_not_mem sale rest hrest, List.sum_cons, List.sum_cons]
      have hbump : (bumpEntry sale e).2 =
          { totalQuantity := e.2.totalQuantity + sale.quantity,
            totalAmount := e.2.totalAmount + sale.amount } := by
        simp [bumpEntry, he]
      rw [hbump, hw]
      ring
    · have hm2 : sale.product ∈ rest.map Prod.fst := by
        rcases List.mem_cons.mp hm with h0 | h0
        · exact absurd h0.symm he
        · exact h0
      have hbump : bumpEntry sale e = e := by simp [bumpEntry, he]
      rw [List.map_cons, List.map_cons, List.map_cons, hbump,
        List.sum_cons, List.sum_cons,
        wsum_map_bump w f sale hw rest h2 hm2]
      ring

/-- One report step keeps the keys distinct. -/
theorem nodup_keys_reportStep (acc : List (String × ProductStats))
    (sale : Sale) (hnd : (acc.map Prod.fst).Nodup) :
    ((reportStep acc sale).map Prod.fst).Nodup := by
  rw [keys_reportStep]
  cases hfg : findGroup acc sale.product with
  | none =>
    have hnotin := (findGroup_eq_none_iff acc sale.product).mp hfg
    simp [List.nodup_append, hnd]
    simpa using hnotin
  | some st => simpa using hnd

/-- One report step adds the sale's contribution to any additive weight of
the object. -/
theorem wsum_reportStep (w : ProductStats → ℚ) (f : Sale → ℚ) (sale : Sale)
    (hw : ∀ st : ProductStats,
      w { totalQuantity := st.totalQuantity + sale.quantity,
          totalAmount := st.totalAmount + sale.amount } = w st + f sale)
    (hw0 : w { totalQuantity := 0, totalAmount := 0 } = 0)
    (acc : List (String × ProductStats))
    (hnd : (acc.map Prod.fst).Nodup) :
    ((reportStep acc sale).map (fun e => w e.2)).sum =
      (acc.map (fun e => w e.2)).sum + f sale := by
  cases hfg : findGroup acc sale.product with
  | some st0 =>
    have hm : sale.product ∈ acc.map Prod.fst := by
      by_contra hmem
      rw [(findGroup_eq_none_iff acc sale.product).mpr hmem] at hfg
      cases hfg
    simp only [reportStep, hfg]
    exact wsum_map_bump w f sale hw acc hnd hm
  | none =>
    have hmem : sale.product ∉ acc.map Prod.fst :=
      (findGroup_eq_none_iff acc sale.product).mp hfg
    simp only [reportStep, hfg]
    have hkeys : ((acc ++ [(sale.product,
        ({ totalQuantity := 0, totalAmount := 0 } : ProductStats))]).map
          Prod.fst) = acc.map Prod.fst ++ [sale.product] := by simp
    have hnd2 : (((acc ++ [(sale.product,
        ({ totalQuantity := 0, totalAmount := 0 } : ProductStats))]).map
          Prod.fst)).Nodup := by
      rw [hkeys]
      simp [List.nodup_append, hnd]
      simpa using hmem
    have hm2 : sale.product ∈ ((acc ++ [(sale.product,
        ({ totalQuantity := 0, totalAmount := 0 } : ProductStats))]).map
          Prod.fst) := by
      rw [hkeys]; simp
    rw [wsum_map_bump w f sale hw _ hnd2 hm2]
    simp [List.sum_append, hw0]

/-- The full grouping fold adds every record's contribution to any additive
weight of the object, exactly once. -/
theorem wsum_foldl_reportStep (w : ProductStats → ℚ) (f : Sale → ℚ)
    (hw : ∀ (st : ProductStats) (sale : Sale),
      w { totalQuantity := st.totalQuantity + sale.quantity,
          totalAmount := st.totalAmount + sale.amount } = w st + f sale)
    (hw0 : w { totalQuantity := 0, totalAmount := 0 } = 0) :
    ∀ (records : List Sale) (acc : List (String × ProductStats)),
      (acc.map Prod.fst).Nodup →
      ((records.foldl reportStep acc).map (fun e => w e.2)).sum =
        (acc.map (fun e => w e.2)).sum + (records.map f).sum
  | [], acc, _ => by simp
  | sale :: rest, acc, hnd => by
    rw [List.foldl_cons,
      wsum_foldl_reportStep w f hw hw0 rest (reportStep acc sale)
        (nodup_keys_reportStep acc sale hnd),
      wsum_reportStep w f sale (fun st => hw st sale) hw0 acc hnd]
    simp [add_assoc]

/-- C10: the product report is conservative with respect to the sales
statistics: summing totalAmount over all groups yields totalSales, and
summing totalQuantity over all groups yields totalQuantity. -/
theorem report_conserves_totals (records : List Sale) :
    ((computeProductReport records).map (fun e => e.2.totalAmount)).sum =
      (computeSalesStats records).totalSales ∧
    ((computeProductReport records).map (fun e => e.2.totalQuantity)).sum =
      (computeSalesStats records).totalQuantity := by
  constructor
  · have h := wsum_foldl_reportStep ProductStats.totalAmount Sale.amount
      (fun st sale => rfl) rfl records [] (by simp)
    show _ = totalSalesOf records
    rw [totalSalesOf_eq_sum]
    simpa [computeProductReport] using h
  · have h := wsum_foldl_reportStep ProductStats.totalQuantity Sale.quantity
      (fun st sale => rfl) rfl records [] (by simp)
    show _ = totalQuantityOf records
    rw [totalQuantityOf_eq_sum]
    simpa [computeProductReport] using h
